import Mathlib

/-!
Verification development for the online speaker diarization pipeline
(src/diart/blocks/diarization.py).  The pipeline orchestration
(`PipelineConfig`, `OnlineSpeakerDiarization.__init__`, `reset`, `__call__`)
is embedded from the source.  The neural segmentation and embedding models
are external oracles and appear as opaque function parameters.  The
`OnlineSpeakerClustering` identity tracker and `DelayedAggregation`'s
`num_overlapping_windows` are implemented in repository modules that are not
part of the given sources; they are modelled from the specification, as noted
on each definition.
-/

namespace Diart

/-- Embedding vector of one local speaker (spec: LocalEmbedding).  Degenerate
embeddings are represented by `Option.none` at the use sites. -/
abbrev Emb := List ℚ

/-- Modelled from the spec: a tracked GlobalSpeaker identity of the
IdentityTracker (`OnlineSpeakerClustering`, whose module is not among the
given sources): a representative embedding, an update counter, and a
long-term flag. -/
structure GlobalSpeaker where
  center : Emb
  updateCount : ℕ
  longTerm : Bool
deriving DecidableEq

instance : Inhabited GlobalSpeaker := ⟨⟨[], 0, false⟩⟩

/-- Round half to even, the semantics of `np.rint` used by `__call__` to
compute the expected number of samples per chunk. -/
def rint (q : ℚ) : ℤ :=
  if q - ⌊q⌋ < 1/2 then ⌊q⌋
  else if 1/2 < q - ⌊q⌋ then ⌊q⌋ + 1
  else if ⌊q⌋ % 2 = 0 then ⌊q⌋ else ⌊q⌋ + 1

/-- Modelled from the spec: `DelayedAggregation.num_overlapping_windows`
(module `aggregation.py` is not among the given sources).  The spec defines
it as the number of chunks whose extents overlap a span of length `latency`
given hop `step`: `ceil(latency / step)`, at least 1. -/
def numOverlappingWindows (step latency : ℚ) : ℕ :=
  max 1 ⌈latency / step⌉.toNat

/-- Mean activity of local speaker `j` over the frames of one chunk
(activity matrix is frames by local speakers). -/
def meanActivity (activity : List (List ℚ)) (j : ℕ) : ℚ :=
  (activity.map (fun fr => fr.getD j 0)).sum / (activity.length : ℚ)

/-- Modelled from the spec: the local speakers of a chunk eligible for
matching: mean activity above `tau_active` and a non-degenerate embedding.
Each is paired with its local index. -/
def activeLocals (tau_active : ℚ) (activity : List (List ℚ))
    (embs : List (Option Emb)) : List (ℕ × Emb) :=
  (List.range embs.length).filterMap fun j =>
    match embs.getD j none with
    | none => none
    | some e => if tau_active < meanActivity activity j then some (j, e) else none

/-- Modelled from the spec: all matchable (local, global, similarity)
candidate pairs: the similarity of the local embedding and the identity's
representative is computed for every pair, and a pair is matchable when its
distance is below `delta_new`, i.e. its similarity is above `1 - delta_new`. -/
def candidatePairs (sim : Emb → Emb → ℚ) (delta_new : ℚ)
    (locals : List (ℕ × Emb)) (globals : List (ℕ × Emb)) : List (ℕ × ℕ × ℚ) :=
  locals.flatMap fun le => globals.filterMap fun ge =>
    if 1 - delta_new < sim le.2 ge.2 then some (le.1, ge.1, sim le.2 ge.2) else none

/-- The highest-similarity candidate (earliest one on ties). -/
def pickBest : List (ℕ × ℕ × ℚ) → Option (ℕ × ℕ × ℚ)
  | [] => none
  | c :: rest =>
    match pickBest rest with
    | none => some c
    | some b => if b.2.2 > c.2.2 then some b else some c

/-- Modelled from the spec: greedy max-similarity-first one-to-one
assignment: repeatedly pick the highest remaining similarity pair, assign
it, and remove both its local and its global speaker from further
consideration; stop when no matchable pair remains. -/
def greedyAssign (fuel : ℕ) (cands : List (ℕ × ℕ × ℚ)) : List (ℕ × ℕ × ℚ) :=
  match fuel with
  | 0 => []
  | fuel + 1 =>
    match pickBest cands with
    | none => []
    | some c =>
      c :: greedyAssign fuel (cands.filter fun d => d.1 != c.1 && d.2.1 != c.2.1)

/-- Modelled from the spec: for each local speaker left unassigned by the
greedy matching, in index order: while the identity set is below
`max_speakers`, instantiate a new GlobalSpeaker (representative is the local
embedding, update count 1, long-term flag false) and assign the local
speaker to it; at the cap the local speaker stays unassigned, with no
error. -/
def spawnNew (max_speakers : ℕ) :
    List (ℕ × Emb) → List GlobalSpeaker → List GlobalSpeaker × List (ℕ × ℕ)
  | [], ids => (ids, [])
  | le :: rest, ids =>
    if ids.length < max_speakers then
      ((spawnNew max_speakers rest (ids ++ [⟨le.2, 1, false⟩])).1,
       (le.1, ids.length) :: (spawnNew max_speakers rest (ids ++ [⟨le.2, 1, false⟩])).2)
    else spawnNew max_speakers rest ids

/-- Incremental running mean of a representative embedding, weighted by the
update count. -/
def runningMean (c : Emb) (k : ℕ) (e : Emb) : Emb :=
  List.zipWith (fun a b => ((k : ℚ) * a + b) / ((k : ℚ) + 1)) c e

/-- Refresh one identity with a matched local embedding: running-mean
centroid update, counter increment, long-term once the counter crosses the
survival threshold. -/
def refreshSpeaker (survival : ℕ) (e : Emb) (g : GlobalSpeaker) : GlobalSpeaker :=
  { center := runningMean g.center g.updateCount e
    updateCount := g.updateCount + 1
    longTerm := g.longTerm || decide (survival ≤ g.updateCount + 1) }

/-- One refresh step: when the pair's similarity is at least `rho_update`,
the matched identity's entry is replaced by its refreshed version; below
`rho_update` (or for an untracked local index) nothing changes. -/
def refreshStep (rho_update : ℚ) (survival : ℕ) (locals : List (ℕ × Emb))
    (acc : List GlobalSpeaker) (t : ℕ × ℕ × ℚ) : List GlobalSpeaker :=
  if rho_update ≤ t.2.2 then
    match locals.lookup t.1 with
    | some e => acc.set t.2.1 (refreshSpeaker survival e (acc.getD t.2.1 default))
    | none => acc
  else acc

/-- Modelled from the spec: for each greedily assigned pair whose similarity
is at least `rho_update`, refresh the matched identity's representative;
lower-similarity assignments leave the representative unchanged. -/
def applyRefresh (rho_update : ℚ) (survival : ℕ) (locals : List (ℕ × Emb)) :
    List GlobalSpeaker → List (ℕ × ℕ × ℚ) → List GlobalSpeaker
  | ids, [] => ids
  | ids, t :: ts =>
    applyRefresh rho_update survival locals
      (refreshStep rho_update survival locals ids t) ts

/-- The indexed identity list the matching runs against: index and current
representative of every known identity. -/
def indexedCenters (ids : List GlobalSpeaker) : List (ℕ × Emb) :=
  (List.range ids.length).map fun i => (i, (ids.getD i default).center)

/-- The greedy assignment (with similarities) computed by one tracker
update: greedy max-similarity-first matching over all matchable candidate
pairs of the chunk's active locals against the current identities. -/
def trackerTrips (tau_active delta_new : ℚ) (sim : Emb → Emb → ℚ)
    (ids : List GlobalSpeaker) (activity : List (List ℚ))
    (embs : List (Option Emb)) : List (ℕ × ℕ × ℚ) :=
  greedyAssign
    (candidatePairs sim delta_new (activeLocals tau_active activity embs)
      (indexedCenters ids)).length
    (candidatePairs sim delta_new (activeLocals tau_active activity embs)
      (indexedCenters ids))

/-- The spawning stage of one tracker update: new identities (and their
assignments) for the active locals the greedy matching left unassigned. -/
def trackerSpawned (tau_active delta_new : ℚ) (max_speakers : ℕ)
    (sim : Emb → Emb → ℚ) (ids : List GlobalSpeaker)
    (activity : List (List ℚ)) (embs : List (Option Emb)) :
    List GlobalSpeaker × List (ℕ × ℕ) :=
  spawnNew max_speakers
    ((activeLocals tau_active activity embs).filter fun le =>
      !(((trackerTrips tau_active delta_new sim ids activity embs).map
          fun t => t.1).contains le.1))
    ids

/-- Modelled from the spec: one IdentityTracker update
(`OnlineSpeakerClustering.__call__`, whose module is not among the given
sources): determine active locals, compute matchable pairs against the
current identities, greedily assign, spawn new identities for unassigned
locals under the cap, refresh confident matches.  Returns the new identity
list and the local-to-global assignment. -/
def updateTracker (tau_active rho_update delta_new : ℚ)
    (max_speakers survival : ℕ) (sim : Emb → Emb → ℚ) (ids : List GlobalSpeaker)
    (activity : List (List ℚ)) (embs : List (Option Emb)) :
    List GlobalSpeaker × List (ℕ × ℕ) :=
  (applyRefresh rho_update survival (activeLocals tau_active activity embs)
     (trackerSpawned tau_active delta_new max_speakers sim ids activity embs).1
     (trackerTrips tau_active delta_new sim ids activity embs),
   (trackerTrips tau_active delta_new sim ids activity embs).map
       (fun t => (t.1, t.2.1))
     ++ (trackerSpawned tau_active delta_new max_speakers sim ids activity embs).2)

/-- Modelled from the spec: the permuted activity matrix: column `g` holds
the activity of the local speaker assigned to global identity `g`, and
zeros when no local speaker is assigned to `g`; unassigned local columns
are dropped. -/
def permute (numGlobals : ℕ) (assignment : List (ℕ × ℕ))
    (activity : List (List ℚ)) : List (List ℚ) :=
  activity.map fun fr =>
    (List.range numGlobals).map fun g =>
      match assignment.find? (fun p => p.2 == g) with
      | some p => fr.getD p.1 0
      | none => 0

/-- A timestamped feature: waveform chunks (samples by channels) and
permuted segmentations (frames by speakers), as pyannote's
SlidingWindowFeature carries them. -/
structure SlidingWindowFeature where
  data : List (List ℚ)
  start : ℚ
  duration : ℚ
deriving DecidableEq

/-- The resolved configuration values held by `PipelineConfig`
(diarization.py).  `duration` and `sample_rate` are resolved from the
segmentation model before construction, externally to the core. -/
structure PipelineConfig where
  duration : ℚ
  step : ℚ
  latency : ℚ
  tau_active : ℚ
  rho_update : ℚ
  delta_new : ℚ
  gamma : ℚ
  beta : ℚ
  max_speakers : ℕ
  sample_rate : ℕ
deriving DecidableEq

/-- The latency argument of `PipelineConfig.__init__`: omitted (None), the
literal "min", the literal "max", or an explicit numeric value. -/
inductive LatencyArg where
  | omitted
  | min
  | max
  | value (q : ℚ)
deriving DecidableEq

/-- Latency resolution of `PipelineConfig.__init__`: None and "min" become
the step, "max" becomes the duration, a numeric value is kept. -/
def resolveLatency (step duration : ℚ) : LatencyArg → ℚ
  | .omitted => step
  | .min => step
  | .max => duration
  | .value q => q

/-- Construction of `PipelineConfig` with the latency resolution of its
`__init__`. -/
def mkPipelineConfig (duration : ℚ) (sample_rate : ℕ) (step : ℚ)
    (latency : LatencyArg) (tau_active rho_update delta_new gamma beta : ℚ)
    (max_speakers : ℕ) : PipelineConfig :=
  { duration := duration, step := step
    latency := resolveLatency step duration latency
    tau_active := tau_active, rho_update := rho_update, delta_new := delta_new
    gamma := gamma, beta := beta, max_speakers := max_speakers
    sample_rate := sample_rate }

/-- The mutable session state of `OnlineSpeakerDiarization`: the
configuration, the clustering state, and the two lock-step buffers. -/
structure PipelineState where
  config : PipelineConfig
  clustering : List GlobalSpeaker
  chunk_buffer : List SlidingWindowFeature
  pred_buffer : List SlidingWindowFeature
deriving DecidableEq

/-- The state set up by `OnlineSpeakerDiarization.reset`: a fresh empty
clustering built from the configuration and two empty buffers. -/
def resetState (config : PipelineConfig) : PipelineState :=
  { config := config, clustering := [], chunk_buffer := [], pred_buffer := [] }

/-- `OnlineSpeakerDiarization.reset`: discards the clustering and both
buffers, keeping the configuration. -/
def reset (s : PipelineState) : PipelineState := resetState s.config

/-- `OnlineSpeakerDiarization.__init__`: asserts
`step <= latency <= duration` before building any component or state, then
initializes via `reset`. -/
def mkPipeline (config : PipelineConfig) : Except String PipelineState :=
  if config.step ≤ config.latency ∧ config.latency ≤ config.duration then
    Except.ok (resetState config)
  else Except.error "Latency should be in the range of step and duration"

/-- The external collaborators of one session, opaque to the core: the
segmentation and embedding oracles, the two `DelayedAggregation` instances,
`Binarize`, and the similarity metric and survival threshold used inside the
clustering (their modules are not among the given sources). -/
structure Oracles (Ann : Type) where
  segmentation : SlidingWindowFeature → List (List ℚ)
  embedding : SlidingWindowFeature → List (List ℚ) → List (Option Emb)
  pred_aggregation : List SlidingWindowFeature → SlidingWindowFeature
  audio_aggregation : List SlidingWindowFeature → SlidingWindowFeature
  binarize : SlidingWindowFeature → Ann
  sim : Emb → Emb → ℚ
  survival : ℕ

/-- The clustering update performed for one chunk inside `__call__`, with
the parameters drawn from the session configuration. -/
def chunkUpdate {Ann : Type} (o : Oracles Ann) (s : PipelineState)
    (sg : List (List ℚ)) (em : List (Option Emb)) :
    List GlobalSpeaker × List (ℕ × ℕ) :=
  updateTracker s.config.tau_active s.config.rho_update s.config.delta_new
    s.config.max_speakers o.survival o.sim s.clustering sg em

/-- The permuted segmentation appended to the prediction buffer for one
chunk: the permuted activity with the chunk's start time and the frame
resolution. -/
def chunkPermuted {Ann : Type} (o : Oracles Ann) (s : PipelineState)
    (seg_resolution : ℚ) (wav : SlidingWindowFeature) (sg : List (List ℚ))
    (em : List (Option Emb)) : SlidingWindowFeature :=
  ⟨permute (chunkUpdate o s sg em).1.length (chunkUpdate o s sg em).2 sg,
    wav.start, seg_resolution⟩

/-- The per-chunk body of the loop in `__call__`: clustering update, append
to both buffers, aggregate each buffer, binarize the prediction aggregate,
then evict the oldest entry of both buffers when the buffer is full. -/
def processChunk {Ann : Type} (o : Oracles Ann) (s : PipelineState)
    (seg_resolution : ℚ) (wav : SlidingWindowFeature) (sg : List (List ℚ))
    (em : List (Option Emb)) : (Ann × SlidingWindowFeature) × PipelineState :=
  ((o.binarize (o.pred_aggregation
      (s.pred_buffer ++ [chunkPermuted o s seg_resolution wav sg em])),
    o.audio_aggregation (s.chunk_buffer ++ [wav])),
   if (s.chunk_buffer ++ [wav]).length
       = numOverlappingWindows s.config.step s.config.latency then
     { s with clustering := (chunkUpdate o s sg em).1
              chunk_buffer := (s.chunk_buffer ++ [wav]).drop 1
              pred_buffer :=
                (s.pred_buffer ++ [chunkPermuted o s seg_resolution wav sg em]).drop 1 }
   else
     { s with clustering := (chunkUpdate o s sg em).1
              chunk_buffer := s.chunk_buffer ++ [wav]
              pred_buffer :=
                s.pred_buffer ++ [chunkPermuted o s seg_resolution wav sg em] })

/-- The loop of `__call__` over the chunks of one batch, in arrival order,
threading the session state. -/
def runChunks {Ann : Type} (o : Oracles Ann) (seg_resolution : ℚ) :
    PipelineState → List SlidingWindowFeature →
    List (Ann × SlidingWindowFeature) × PipelineState
  | s, [] => ([], s)
  | s, wav :: rest =>
    ((processChunk o s seg_resolution wav (o.segmentation wav)
        (o.embedding wav (o.segmentation wav))).1 ::
      (runChunks o seg_resolution (processChunk o s seg_resolution wav
        (o.segmentation wav) (o.embedding wav (o.segmentation wav))).2 rest).1,
     (runChunks o seg_resolution (processChunk o s seg_resolution wav
        (o.segmentation wav) (o.embedding wav (o.segmentation wav))).2 rest).2)

/-- `OnlineSpeakerDiarization.__call__`: assert a non-empty batch, stack
the chunks (which demands one common sample count), assert that count is
`rint(duration * sample_rate)`, then run the per-chunk loop.  Every
precondition failure happens before any clustering or buffer mutation, and
an error result carries no successor state. -/
def pipelineCall {Ann : Type} (o : Oracles Ann) (s : PipelineState)
    (waveforms : List SlidingWindowFeature) :
    Except String (List (Ann × SlidingWindowFeature) × PipelineState) :=
  match waveforms with
  | [] => Except.error "Pipeline expected at least 1 input"
  | w0 :: rest =>
    if ∃ w ∈ w0 :: rest, w.data.length ≠ w0.data.length then
      Except.error "stack expects each tensor to be equal size"
    else if (w0.data.length : ℤ) ≠ rint (s.config.duration * (s.config.sample_rate : ℚ)) then
      Except.error "Unexpected number of samples per chunk"
    else
      Except.ok (runChunks o (w0.duration / ((o.segmentation w0).length : ℚ)) s (w0 :: rest))

/-- A concrete configuration for evaluating the pipeline on small inputs:
one-second chunks at one sample per second, step and latency one half. -/
def cfg0 : PipelineConfig :=
  { duration := 1, step := 1/2, latency := 1/2, tau_active := 1/2
    rho_update := 3/10, delta_new := 1, gamma := 3, beta := 10
    max_speakers := 20, sample_rate := 1 }

/-- A concrete well-sized chunk for `cfg0`: one sample, one channel. -/
def chunk0 : SlidingWindowFeature := ⟨[[0]], 0, 1⟩

/-- A concrete chunk with the wrong sample count for `cfg0` (two samples
where one is expected). -/
def badChunk : SlidingWindowFeature := ⟨[[0], [0]], 0, 1⟩

/-- A session state with leftover clustering and buffer contents, used to
evaluate `reset`. -/
def junkState : PipelineState :=
  { config := cfg0, clustering := [⟨[2], 5, true⟩]
    chunk_buffer := [chunk0], pred_buffer := [chunk0] }

/-- Concrete external collaborators for evaluating the pipeline: a
one-frame one-speaker segmentation, a constant embedding, head-of-buffer
aggregations, a trivial annotation, and a constant similarity. -/
def trivialOracles : Oracles Unit :=
  { segmentation := fun _ => [[1]]
    embedding := fun _ _ => [some [1]]
    pred_aggregation := fun l => l.headD ⟨[], 0, 0⟩
    audio_aggregation := fun l => l.headD ⟨[], 0, 0⟩
    binarize := fun _ => ()
    sim := fun _ _ => 1
    survival := 3 }

/-! ## Helper lemmas about the pipeline loop -/

lemma processChunk_fst {Ann : Type} (o : Oracles Ann) (s : PipelineState)
    (r : ℚ) (wav : SlidingWindowFeature) (sg : List (List ℚ))
    (em : List (Option Emb)) :
    (processChunk o s r wav sg em).1
      = (o.binarize (o.pred_aggregation
          (s.pred_buffer ++ [chunkPermuted o s r wav sg em])),
         o.audio_aggregation (s.chunk_buffer ++ [wav])) := rfl

lemma processChunk_config {Ann : Type} (o : Oracles Ann) (s : PipelineState)
    (r : ℚ) (wav : SlidingWindowFeature) (sg : List (List ℚ))
    (em : List (Option Emb)) :
    (processChunk o s r wav sg em).2.config = s.config := by
  show (if _ then _ else _ : PipelineState).config = s.config
  split <;> rfl

lemma processChunk_clustering {Ann : Type} (o : Oracles Ann) (s : PipelineState)
    (r : ℚ) (wav : SlidingWindowFeature) (sg : List (List ℚ))
    (em : List (Option Emb)) :
    (processChunk o s r wav sg em).2.clustering = (chunkUpdate o s sg em).1 := by
  show (if _ then _ else _ : PipelineState).clustering = _
  split <;> rfl

lemma processChunk_chunk_buffer {Ann : Type} (o : Oracles Ann)
    (s : PipelineState) (r : ℚ) (wav : SlidingWindowFeature)
    (sg : List (List ℚ)) (em : List (Option Emb)) :
    (processChunk o s r wav sg em).2.chunk_buffer
      = (if (s.chunk_buffer ++ [wav]).length
            = numOverlappingWindows s.config.step s.config.latency
         then (s.chunk_buffer ++ [wav]).drop 1 else s.chunk_buffer ++ [wav]) := by
  show (if _ then _ else _ : PipelineState).chunk_buffer = _
  split <;> rfl

lemma processChunk_pred_buffer {Ann : Type} (o : Oracles Ann)
    (s : PipelineState) (r : ℚ) (wav : SlidingWindowFeature)
    (sg : List (List ℚ)) (em : List (Option Emb)) :
    (processChunk o s r wav sg em).2.pred_buffer
      = (if (s.chunk_buffer ++ [wav]).length
            = numOverlappingWindows s.config.step s.config.latency
         then (s.pred_buffer ++ [chunkPermuted o s r wav sg em]).drop 1
         else s.pred_buffer ++ [chunkPermuted o s r wav sg em]) := by
  show (if _ then _ else _ : PipelineState).pred_buffer = _
  split <;> rfl

lemma runChunks_config {Ann : Type} (o : Oracles Ann) (r : ℚ)
    (ws : List SlidingWindowFeature) (s : PipelineState) :
    (runChunks o r s ws).2.config = s.config := by
  induction ws generalizing s with
  | nil => rfl
  | cons wav rest ih =>
    show (runChunks o r _ rest).2.config = s.config
    rw [ih, processChunk_config]

lemma runChunks_length {Ann : Type} (o : Oracles Ann) (r : ℚ)
    (ws : List SlidingWindowFeature) (s : PipelineState) :
    (runChunks o r s ws).1.length = ws.length := by
  induction ws generalizing s with
  | nil => rfl
  | cons wav rest ih =>
    show (_ :: (runChunks o r _ rest).1).length = rest.length + 1
    rw [List.length_cons, ih]

lemma runChunks_append {Ann : Type} (o : Oracles Ann) (r : ℚ)
    (a b : List SlidingWindowFeature) (s : PipelineState) :
    runChunks o r s (a ++ b)
      = ((runChunks o r s a).1 ++ (runChunks o r (runChunks o r s a).2 b).1,
         (runChunks o r (runChunks o r s a).2 b).2) := by
  induction a generalizing s with
  | nil => rfl
  | cons wav rest ih =>
    simp only [List.cons_append, runChunks, List.append_eq, ih, List.nil_append]

/-- A positive window count: `numOverlappingWindows` is at least 1. -/
lemma numOverlappingWindows_pos (step latency : ℚ) :
    0 < numOverlappingWindows step latency :=
  Nat.lt_of_lt_of_le Nat.zero_lt_one (Nat.le_max_left 1 _)

lemma runChunks_buffer_lengths {Ann : Type} (o : Oracles Ann) (r : ℚ)
    (ws : List SlidingWindowFeature) (s : PipelineState)
    (heq : s.pred_buffer.length = s.chunk_buffer.length)
    (hlt : s.chunk_buffer.length
      < numOverlappingWindows s.config.step s.config.latency) :
    (runChunks o r s ws).2.chunk_buffer.length
      = min (s.chunk_buffer.length + ws.length)
          (numOverlappingWindows s.config.step s.config.latency - 1)
    ∧ (runChunks o r s ws).2.pred_buffer.length
      = (runChunks o r s ws).2.chunk_buffer.length := by
  induction ws generalizing s with
  | nil =>
    refine ⟨?_, heq⟩
    show s.chunk_buffer.length = _
    simp only [List.length_nil, Nat.add_zero]
    omega
  | cons wav rest ih =>
    have hcfg := processChunk_config o s r wav (o.segmentation wav)
      (o.embedding wav (o.segmentation wav))
    set s' := (processChunk o s r wav (o.segmentation wav)
      (o.embedding wav (o.segmentation wav))).2 with hs'
    have hcb : s'.chunk_buffer.length
        = (if s.chunk_buffer.length + 1
              = numOverlappingWindows s.config.step s.config.latency
           then s.chunk_buffer.length else s.chunk_buffer.length + 1) := by
      rw [hs', processChunk_chunk_buffer]
      split
      · next h =>
        rw [if_pos (by simpa using h)]
        simp
      · next h =>
        rw [if_neg (by simpa using h)]
        simp
    have hpb : s'.pred_buffer.length
        = (if s.chunk_buffer.length + 1
              = numOverlappingWindows s.config.step s.config.latency
           then s.pred_buffer.length else s.pred_buffer.length + 1) := by
      rw [hs', processChunk_pred_buffer]
      split
      · next h =>
        rw [if_pos (by simpa using h)]
        simp
      · next h =>
        rw [if_neg (by simpa using h)]
        simp
    have heq' : s'.pred_buffer.length = s'.chunk_buffer.length := by
      rw [hcb, hpb]
      split <;> omega
    have hlt' : s'.chunk_buffer.length
        < numOverlappingWindows s'.config.step s'.config.latency := by
      rw [hcfg, hcb]
      split <;> omega
    obtain ⟨h1, h2⟩ := ih s' heq' hlt'
    rw [hcfg] at h1
    constructor
    · show (runChunks o r s' rest).2.chunk_buffer.length = _
      rw [h1, hcb]
      simp only [List.length_cons]
      have hpos := numOverlappingWindows_pos s.config.step s.config.latency
      split <;> omega
    · exact h2

/-! ## Claim theorems (first group) -/

/-- C3: `PipelineConfig` resolves the latency argument: omitted (None) and
the literal "min" become the step, the literal "max" becomes the duration,
and an explicit numeric value is kept as given; the invariant
`step <= latency <= duration` is exactly the condition under which the
pipeline construction succeeds. -/
theorem latency_resolution :
    ∀ (duration : ℚ) (sample_rate : ℕ) (step : ℚ)
      (tau_active rho_update delta_new gamma beta : ℚ) (max_speakers : ℕ) (q : ℚ),
    (mkPipelineConfig duration sample_rate step .omitted tau_active rho_update
        delta_new gamma beta max_speakers).latency = step
    ∧ (mkPipelineConfig duration sample_rate step .min tau_active rho_update
        delta_new gamma beta max_speakers).latency = step
    ∧ (mkPipelineConfig duration sample_rate step .max tau_active rho_update
        delta_new gamma beta max_speakers).latency = duration
    ∧ (mkPipelineConfig duration sample_rate step (.value q) tau_active rho_update
        delta_new gamma beta max_speakers).latency = q
    ∧ ∀ cfg : PipelineConfig,
        (∃ s, mkPipeline cfg = Except.ok s)
          ↔ (cfg.step ≤ cfg.latency ∧ cfg.latency ≤ cfg.duration) := by
  intro duration sample_rate step tau_active rho_update delta_new gamma beta
    max_speakers q
  refine ⟨rfl, rfl, rfl, rfl, fun cfg => ⟨?_, ?_⟩⟩
  · rintro ⟨s, hs⟩
    by_contra h
    unfold mkPipeline at hs
    rw [if_neg h] at hs
    exact Except.noConfusion hs
  · intro h
    exact ⟨resetState cfg, by unfold mkPipeline; rw [if_pos h]⟩

/-- C8: `num_overlapping_windows` equals `ceil(latency / step)` and is at
least 1; it is monotone in the latency for a fixed step, and in the minimal
case `latency = step` it equals 1, so the buffer used for each output holds
exactly one chunk. -/
theorem num_overlapping_windows_spec (step latency : ℚ)
    (hs : 0 < step) (hl : step ≤ latency) :
    (numOverlappingWindows step latency : ℤ) = ⌈latency / step⌉
    ∧ 1 ≤ numOverlappingWindows step latency
    ∧ (∀ latency2, latency ≤ latency2 →
        numOverlappingWindows step latency ≤ numOverlappingWindows step latency2)
    ∧ numOverlappingWindows step step = 1 := by
  have hdiv : (1 : ℚ) ≤ latency / step := (one_le_div hs).mpr hl
  have hceil : (1 : ℤ) ≤ ⌈latency / step⌉ := by
    have := Int.ceil_mono hdiv
    rwa [Int.ceil_one] at this
  have htn : 1 ≤ ⌈latency / step⌉.toNat := by omega
  have hval : numOverlappingWindows step latency = ⌈latency / step⌉.toNat := by
    unfold numOverlappingWindows
    omega
  refine ⟨?_, ?_, ?_, ?_⟩
  · rw [hval]
    omega
  · rw [hval]; exact htn
  · intro latency2 h2
    unfold numOverlappingWindows
    have hd : latency / step ≤ latency2 / step :=
      (div_le_div_iff_of_pos_right hs).mpr h2
    have hc := Int.ceil_mono hd
    omega
  · unfold numOverlappingWindows
    rw [div_self (ne_of_gt hs)]
    simp

/-- C10: a `process` call and a `reset` mutate only the clustering and the
two buffers: the configuration (duration, step, latency, tau_active,
rho_update, delta_new, max_speakers, sample_rate) carried by the state is
unchanged by `processChunk`, by the whole loop, by `reset`, and by a
successful or failing `pipelineCall`. -/
theorem process_config_frame :
    ∀ {Ann : Type} (o : Oracles Ann) (s : PipelineState) (r : ℚ),
    (∀ wav sg em, (processChunk o s r wav sg em).2.config = s.config)
    ∧ (∀ ws, (runChunks o r s ws).2.config = s.config)
    ∧ (reset s).config = s.config
    ∧ ∀ ws, (pipelineCall o s ws).map (fun p => p.2.config)
        = (pipelineCall o s ws).map (fun _ => s.config) := by
  intro Ann o s r
  refine ⟨fun wav sg em => processChunk_config o s r wav sg em,
    fun ws => runChunks_config o r ws s, rfl, fun ws => ?_⟩
  match ws with
  | [] => rfl
  | w0 :: rest =>
    simp only [pipelineCall]
    by_cases h1 : ∃ w ∈ w0 :: rest, w.data.length ≠ w0.data.length
    · rw [if_pos h1]
      rfl
    · rw [if_neg h1]
      by_cases h2 : (w0.data.length : ℤ)
          ≠ rint (s.config.duration * (s.config.sample_rate : ℚ))
      · rw [if_pos h2]
        rfl
      · rw [if_neg h2]
        simp only [Except.map]
        rw [runChunks_config]

/-- C5: `reset` discards all tracker and buffer state, producing the fresh
session state of the configuration with empty clustering and empty buffers;
consequently replaying any input sequence after a reset yields exactly the
run of the fresh state, so two runs over the same inputs from reset states
with the same configuration produce identical output sequences. -/
theorem reset_discards_and_replay :
    ∀ {Ann : Type} (o : Oracles Ann) (s s2 : PipelineState) (r : ℚ)
      (ws : List SlidingWindowFeature),
    reset s = resetState s.config
    ∧ (s.config = s2.config →
        runChunks o r (reset s) ws = runChunks o r (reset s2) ws) := by
  intro Ann o s s2 r ws
  exact ⟨rfl, fun h => by unfold reset; rw [h]⟩

/-- C4: starting from a reset session, neither buffer ever holds more than
`num_overlapping_windows` entries, and the eviction after producing a
chunk's output is lock-step: exactly when the appended chunk buffer reaches
`num_overlapping_windows`, the oldest entry of both buffers is dropped, and
otherwise both keep their appended contents (strict FIFO). -/
theorem buffer_bound_lockstep_eviction :
    ∀ {Ann : Type} (o : Oracles Ann) (cfg : PipelineConfig) (r : ℚ)
      (ws : List SlidingWindowFeature),
    ((runChunks o r (resetState cfg) ws).2.chunk_buffer.length
        ≤ numOverlappingWindows cfg.step cfg.latency
      ∧ (runChunks o r (resetState cfg) ws).2.pred_buffer.length
        ≤ numOverlappingWindows cfg.step cfg.latency)
    ∧ ∀ (s : PipelineState) (wav : SlidingWindowFeature) (sg : List (List ℚ))
        (em : List (Option Emb)),
        (processChunk o s r wav sg em).2.chunk_buffer
          = (if (s.chunk_buffer ++ [wav]).length
                = numOverlappingWindows s.config.step s.config.latency
             then (s.chunk_buffer ++ [wav]).drop 1 else s.chunk_buffer ++ [wav])
        ∧ (processChunk o s r wav sg em).2.pred_buffer
          = (if (s.chunk_buffer ++ [wav]).length
                = numOverlappingWindows s.config.step s.config.latency
             then (s.pred_buffer ++ [chunkPermuted o s r wav sg em]).drop 1
             else s.pred_buffer ++ [chunkPermuted o s r wav sg em]) := by
  intro Ann o cfg r ws
  have hb := runChunks_buffer_lengths o r ws (resetState cfg) rfl
    (numOverlappingWindows_pos cfg.step cfg.latency)
  simp only [resetState, List.length_nil, Nat.zero_add] at hb
  refine ⟨⟨?_, ?_⟩, fun s wav sg em =>
    ⟨processChunk_chunk_buffer o s r wav sg em,
     processChunk_pred_buffer o s r wav sg em⟩⟩
  · simp only [resetState]
    rw [hb.1]
    omega
  · simp only [resetState]
    rw [hb.2, hb.1]
    omega

/-- C9: after processing `k` chunks since a reset, both buffers have equal
length and that length is `min k (num_overlapping_windows - 1)` — the
steady state after eviction is one below the bound (and 0 when the bound is
1); the loop composes over any partitioning of the chunk sequence into
batches, so the formula holds across process calls. -/
theorem buffer_length_exact :
    ∀ {Ann : Type} (o : Oracles Ann) (cfg : PipelineConfig) (r : ℚ)
      (ws : List SlidingWindowFeature),
    (runChunks o r (resetState cfg) ws).2.pred_buffer.length
        = (runChunks o r (resetState cfg) ws).2.chunk_buffer.length
    ∧ (runChunks o r (resetState cfg) ws).2.chunk_buffer.length
        = min ws.length (numOverlappingWindows cfg.step cfg.latency - 1)
    ∧ ∀ (s : PipelineState) (a b : List SlidingWindowFeature),
        runChunks o r s (a ++ b)
          = ((runChunks o r s a).1 ++ (runChunks o r (runChunks o r s a).2 b).1,
             (runChunks o r (runChunks o r s a).2 b).2) := by
  intro Ann o cfg r ws
  have hb := runChunks_buffer_lengths o r ws (resetState cfg) rfl
    (numOverlappingWindows_pos cfg.step cfg.latency)
  simp only [resetState, List.length_nil, Nat.zero_add] at hb
  exact ⟨hb.2, hb.1, fun s a b => runChunks_append o r a b s⟩

/-- C2: the precondition violations fail before any state mutation: an
empty batch and a chunk sample count differing from
`rint(duration * sample_rate)` make `pipelineCall` return an error (which
carries no successor state, so clustering and buffers are untouched), and a
configured latency outside `[step, duration]` makes the pipeline
construction itself fail. -/
theorem precondition_fail_fast :
    ∀ {Ann : Type} (o : Oracles Ann) (s : PipelineState)
      (ws : List SlidingWindowFeature) (cfg : PipelineConfig),
    pipelineCall o s [] = Except.error "Pipeline expected at least 1 input"
    ∧ ((∃ w ∈ ws, (w.data.length : ℤ)
          ≠ rint (s.config.duration * (s.config.sample_rate : ℚ))) →
        ∃ msg, pipelineCall o s ws = Except.error msg)
    ∧ (¬ (cfg.step ≤ cfg.latency ∧ cfg.latency ≤ cfg.duration) →
        mkPipeline cfg
          = Except.error "Latency should be in the range of step and duration") := by
  intro Ann o s ws cfg
  refine ⟨rfl, ?_, fun h => by unfold mkPipeline; rw [if_neg h]⟩
  rintro ⟨w, hw, hne⟩
  match ws with
  | [] => cases hw
  | w0 :: rest =>
    simp only [pipelineCall]
    by_cases h1 : ∃ w' ∈ w0 :: rest, w'.data.length ≠ w0.data.length
    · rw [if_pos h1]
      exact ⟨_, rfl⟩
    · rw [if_neg h1]
      push_neg at h1
      have hw0 : w.data.length = w0.data.length := h1 w hw
      have h2 : (w0.data.length : ℤ)
          ≠ rint (s.config.duration * (s.config.sample_rate : ℚ)) := by
        rw [← hw0]
        exact hne
      rw [if_pos h2]
      exact ⟨_, rfl⟩

/-- C1: a valid batch makes `pipelineCall` return the chunk loop's result:
exactly one (annotation, waveform) pair per input chunk, in input order
(the loop appends one output per chunk, threading the state left to
right), and for each chunk the output is produced from the clustering
update followed by the appends to both buffers, the aggregation of each
appended buffer, and the binarization of the prediction aggregate, with the
clustering state advanced by that chunk's tracker update and eviction
applied only afterwards. -/
theorem pipeline_call_per_chunk :
    ∀ {Ann : Type} (o : Oracles Ann) (s : PipelineState)
      (w0 : SlidingWindowFeature) (rest : List SlidingWindowFeature) (r : ℚ),
    ((∀ w ∈ w0 :: rest, (w.data.length : ℤ)
        = rint (s.config.duration * (s.config.sample_rate : ℚ))) →
      pipelineCall o s (w0 :: rest)
        = Except.ok (runChunks o (w0.duration / ((o.segmentation w0).length : ℚ))
            s (w0 :: rest)))
    ∧ (∀ (ws : List SlidingWindowFeature) (s' : PipelineState),
        (runChunks o r s' ws).1.length = ws.length)
    ∧ (∀ (ws : List SlidingWindowFeature) (s' : PipelineState)
        (w : SlidingWindowFeature),
        runChunks o r s' (ws ++ [w])
          = ((runChunks o r s' ws).1
              ++ [(processChunk o (runChunks o r s' ws).2 r w (o.segmentation w)
                    (o.embedding w (o.segmentation w))).1],
             (processChunk o (runChunks o r s' ws).2 r w (o.segmentation w)
                (o.embedding w (o.segmentation w))).2))
    ∧ ∀ (s' : PipelineState) (wav : SlidingWindowFeature) (sg : List (List ℚ))
        (em : List (Option Emb)),
        (processChunk o s' r wav sg em).1.1
          = o.binarize (o.pred_aggregation
              (s'.pred_buffer ++ [chunkPermuted o s' r wav sg em]))
        ∧ (processChunk o s' r wav sg em).1.2
          = o.audio_aggregation (s'.chunk_buffer ++ [wav])
        ∧ (processChunk o s' r wav sg em).2.clustering
          = (chunkUpdate o s' sg em).1 := by
  intro Ann o s w0 rest r
  refine ⟨?_, fun ws s' => runChunks_length o r ws s', fun ws s' w => ?_,
    fun s' wav sg em => ⟨rfl, rfl, processChunk_clustering o s' r wav sg em⟩⟩
  · intro hall
    simp only [pipelineCall]
    have h1 : ¬ ∃ w ∈ w0 :: rest, w.data.length ≠ w0.data.length := by
      rintro ⟨w, hw, hne⟩
      apply hne
      have hcast : (w.data.length : ℤ) = (w0.data.length : ℤ) := by
        rw [hall w hw, hall w0 (List.mem_cons_self w0 rest)]
      exact_mod_cast hcast
    rw [if_neg h1]
    have h2 : ¬ (w0.data.length : ℤ)
        ≠ rint (s.config.duration * (s.config.sample_rate : ℚ)) :=
      not_not_intro (hall w0 (List.mem_cons_self w0 rest))
    rw [if_neg h2]
  · rw [runChunks_append]
    have hsnoc : ∀ (s2 : PipelineState),
        runChunks o r s2 [w]
          = ([(processChunk o s2 r w (o.segmentation w)
                (o.embedding w (o.segmentation w))).1],
             (processChunk o s2 r w (o.segmentation w)
                (o.embedding w (o.segmentation w))).2) := fun s2 => rfl
    rw [hsnoc]

/-! ## Helper lemmas about the identity tracker -/

lemma pickBest_mem : ∀ (l : List (ℕ × ℕ × ℚ)) (x : ℕ × ℕ × ℚ),
    pickBest l = some x → x ∈ l := by
  intro l
  induction l with
  | nil => intro x h; exact Option.noConfusion h
  | cons c rest ih =>
    intro x h
    unfold pickBest at h
    split at h
    · injection h with h'
      rw [← h']
      exact List.mem_cons_self c rest
    · next b hrec =>
      split at h
      · injection h with h'
        rw [← h']
        exact List.mem_cons_of_mem c (ih b hrec)
      · injection h with h'
        rw [← h']
        exact List.mem_cons_self c rest

lemma greedyAssign_subset : ∀ (fuel : ℕ) (cands : List (ℕ × ℕ × ℚ))
    (x : ℕ × ℕ × ℚ), x ∈ greedyAssign fuel cands → x ∈ cands := by
  intro fuel
  induction fuel with
  | zero =>
    intro cands x h
    simp [greedyAssign] at h
  | succ n ih =>
    intro cands x h
    unfold greedyAssign at h
    split at h
    · exact absurd h (List.not_mem_nil x)
    · next c heq =>
      rcases List.mem_cons.mp h with hx | hx
      · rw [hx]
        exact pickBest_mem cands c heq
      · have hf := ih _ x hx
        exact (List.mem_filter.mp hf).1

lemma greedyAssign_nodup_global (fuel : ℕ) (cands : List (ℕ × ℕ × ℚ)) :
    ((greedyAssign fuel cands).map fun t => t.2.1).Nodup := by
  induction fuel generalizing cands with
  | zero => simp [greedyAssign]
  | succ n ih =>
    unfold greedyAssign
    split
    · simp
    · next c heq =>
      simp only [List.map_cons, List.nodup_cons]
      refine ⟨?_, ih _⟩
      intro hmem
      rw [List.mem_map] at hmem
      obtain ⟨t, ht, htg⟩ := hmem
      have hf := greedyAssign_subset n _ t ht
      have hcond := (List.mem_filter.mp hf).2
      rw [Bool.and_eq_true, bne_iff_ne, bne_iff_ne] at hcond
      exact hcond.2 htg

lemma candidatePairs_snd_mem : ∀ (sim : Emb → Emb → ℚ) (delta_new : ℚ)
    (locals globals : List (ℕ × Emb)) (x : ℕ × ℕ × ℚ),
    x ∈ candidatePairs sim delta_new locals globals → ∃ ge ∈ globals, x.2.1 = ge.1 := by
  intro sim delta_new locals globals x hx
  unfold candidatePairs at hx
  rw [List.mem_flatMap] at hx
  obtain ⟨le, hle, hx⟩ := hx
  rw [List.mem_filterMap] at hx
  obtain ⟨ge, hge, hsome⟩ := hx
  refine ⟨ge, hge, ?_⟩
  by_cases hc : 1 - delta_new < sim le.2 ge.2
  · rw [if_pos hc] at hsome
    injection hsome with h'
    rw [← h']
  · rw [if_neg hc] at hsome
    exact Option.noConfusion hsome

lemma indexedCenters_fst_lt (ids : List GlobalSpeaker) (ge : ℕ × Emb)
    (hge : ge ∈ indexedCenters ids) : ge.1 < ids.length := by
  unfold indexedCenters at hge
  rw [List.mem_map] at hge
  obtain ⟨i, hi, hgei⟩ := hge
  rw [← hgei]
  exact List.mem_range.mp hi

lemma spawnNew_assign_range : ∀ (m : ℕ) (la : List (ℕ × Emb))
    (ids : List GlobalSpeaker),
    ∃ k, ((spawnNew m la ids).2).map Prod.snd = List.range' ids.length k := by
  intro m la
  induction la with
  | nil => intro ids; exact ⟨0, rfl⟩
  | cons le rest ih =>
    intro ids
    unfold spawnNew
    by_cases h : ids.length < m
    · rw [if_pos h]
      obtain ⟨k, hk⟩ := ih (ids ++ [⟨le.2, 1, false⟩])
      refine ⟨k + 1, ?_⟩
      simp only [List.map_cons]
      rw [hk, List.length_append, List.length_singleton, List.range'_succ]
    · rw [if_neg h]
      exact ih ids

lemma spawnNew_length_le : ∀ (m : ℕ) (la : List (ℕ × Emb))
    (ids : List GlobalSpeaker), (spawnNew m la ids).1.length ≤ max ids.length m := by
  intro m la
  induction la with
  | nil => intro ids; exact Nat.le_max_left _ _
  | cons le rest ih =>
    intro ids
    unfold spawnNew
    by_cases h : ids.length < m
    · rw [if_pos h]
      show (spawnNew m rest (ids ++ [⟨le.2, 1, false⟩])).1.length ≤ _
      have hr := ih (ids ++ [⟨le.2, 1, false⟩])
      simp only [List.length_append, List.length_singleton] at hr
      omega
    · rw [if_neg h]
      have hr := ih ids
      omega

lemma spawnNew_length_mono : ∀ (m : ℕ) (la : List (ℕ × Emb))
    (ids : List GlobalSpeaker), ids.length ≤ (spawnNew m la ids).1.length := by
  intro m la
  induction la with
  | nil => intro ids; exact le_refl _
  | cons le rest ih =>
    intro ids
    unfold spawnNew
    by_cases h : ids.length < m
    · rw [if_pos h]
      show ids.length ≤ (spawnNew m rest (ids ++ [⟨le.2, 1, false⟩])).1.length
      have hr := ih (ids ++ [⟨le.2, 1, false⟩])
      simp only [List.length_append, List.length_singleton] at hr
      omega
    · rw [if_neg h]
      exact ih ids

lemma refreshStep_length (rho_update : ℚ) (survival : ℕ)
    (locals : List (ℕ × Emb)) (acc : List GlobalSpeaker) (t : ℕ × ℕ × ℚ) :
    (refreshStep rho_update survival locals acc t).length = acc.length := by
  unfold refreshStep
  by_cases h : rho_update ≤ t.2.2
  · rw [if_pos h]
    cases locals.lookup t.1 with
    | none => rfl
    | some e => exact List.length_set acc _ _
  · rw [if_neg h]

lemma applyRefresh_length : ∀ (rho_update : ℚ) (survival : ℕ)
    (locals : List (ℕ × Emb)) (trips : List (ℕ × ℕ × ℚ))
    (ids : List GlobalSpeaker),
    (applyRefresh rho_update survival locals ids trips).length = ids.length := by
  intro rho_update survival locals trips
  induction trips with
  | nil => intro ids; rfl
  | cons t ts ih =>
    intro ids
    unfold applyRefresh
    rw [ih, refreshStep_length]

lemma updateTracker_length_mono (tau_active rho_update delta_new : ℚ)
    (max_speakers survival : ℕ) (sim : Emb → Emb → ℚ)
    (ids : List GlobalSpeaker) (activity : List (List ℚ))
    (embs : List (Option Emb)) :
    ids.length ≤ (updateTracker tau_active rho_update delta_new max_speakers
      survival sim ids activity embs).1.length := by
  unfold updateTracker
  rw [applyRefresh_length]
  exact spawnNew_length_mono max_speakers _ ids

lemma updateTracker_length_le (tau_active rho_update delta_new : ℚ)
    (max_speakers survival : ℕ) (sim : Emb → Emb → ℚ)
    (ids : List GlobalSpeaker) (activity : List (List ℚ))
    (embs : List (Option Emb)) :
    (updateTracker tau_active rho_update delta_new max_speakers
      survival sim ids activity embs).1.length ≤ max ids.length max_speakers := by
  unfold updateTracker
  rw [applyRefresh_length]
  exact spawnNew_length_le max_speakers _ ids

lemma foldTracker_cap (tau_active rho_update delta_new : ℚ)
    (max_speakers survival : ℕ) (sim : Emb → Emb → ℚ)
    (inputs : List (List (List ℚ) × List (Option Emb))) :
    ∀ (ids : List GlobalSpeaker), ids.length ≤ max_speakers →
    (inputs.foldl (fun st ae =>
      (updateTracker tau_active rho_update delta_new max_speakers survival sim
        st ae.1 ae.2).1) ids).length ≤ max_speakers := by
  induction inputs with
  | nil => intro ids h; exact h
  | cons ae rest ih =>
    intro ids h
    rw [List.foldl_cons]
    apply ih
    have hle := updateTracker_length_le tau_active rho_update delta_new
      max_speakers survival sim ids ae.1 ae.2
    omega

/-! ## Claim theorems (second group) -/

/-- C6: for any update sequence from a fresh clustering, the number of
tracked GlobalSpeaker identities never exceeds `max_speakers`; one update
never removes an identity (the identity list never shrinks); and an update
is a total function whose growth is always bounded by the cap, so reaching
the cap is not an error — the unmatched local speakers simply spawn
nothing. -/
theorem speaker_cap_never_deleted :
    ∀ (tau_active rho_update delta_new : ℚ) (max_speakers survival : ℕ)
      (sim : Emb → Emb → ℚ)
      (inputs : List (List (List ℚ) × List (Option Emb))),
    ((inputs.foldl (fun st ae =>
        (updateTracker tau_active rho_update delta_new max_speakers survival sim
          st ae.1 ae.2).1) []).length ≤ max_speakers)
    ∧ (∀ (ids : List GlobalSpeaker) (activity : List (List ℚ))
        (embs : List (Option Emb)),
        ids.length ≤ (updateTracker tau_active rho_update delta_new max_speakers
          survival sim ids activity embs).1.length)
    ∧ (∀ (ids : List GlobalSpeaker) (activity : List (List ℚ))
        (embs : List (Option Emb)),
        (updateTracker tau_active rho_update delta_new max_speakers survival sim
          ids activity embs).1.length ≤ max ids.length max_speakers) := by
  intro tau_active rho_update delta_new max_speakers survival sim inputs
  exact ⟨foldTracker_cap tau_active rho_update delta_new max_speakers survival
      sim inputs [] (Nat.zero_le _),
    fun ids a e => updateTracker_length_mono tau_active rho_update delta_new
      max_speakers survival sim ids a e,
    fun ids a e => updateTracker_length_le tau_active rho_update delta_new
      max_speakers survival sim ids a e⟩

/-- C7: within one chunk, the local-to-global assignment returned by a
tracker update is injective on assigned entries: the list of assigned
global identities has no duplicate, so no two local speakers are mapped to
the same global identity. -/
theorem assignment_injective :
    ∀ (tau_active rho_update delta_new : ℚ) (max_speakers survival : ℕ)
      (sim : Emb → Emb → ℚ) (ids : List GlobalSpeaker)
      (activity : List (List ℚ)) (embs : List (Option Emb)),
    (((updateTracker tau_active rho_update delta_new max_speakers survival sim
        ids activity embs).2).map Prod.snd).Nodup := by
  intro tau_active rho_update delta_new max_speakers survival sim ids activity embs
  unfold updateTracker
  rw [List.map_append, List.map_map]
  obtain ⟨k, hk⟩ := spawnNew_assign_range max_speakers
    ((activeLocals tau_active activity embs).filter fun le =>
      !(((trackerTrips tau_active delta_new sim ids activity embs).map
          fun t => t.1).contains le.1)) ids
  rw [List.nodup_append]
  refine ⟨greedyAssign_nodup_global _ _, ?_, ?_⟩
  · show ((trackerSpawned tau_active delta_new max_speakers sim ids activity
      embs).2.map Prod.snd).Nodup
    unfold trackerSpawned
    rw [hk]
    exact List.nodup_range' _ _
  · intro g hg1 hg2
    have hg1' : g ∈ (trackerTrips tau_active delta_new sim ids activity
        embs).map fun t => t.2.1 := hg1
    rw [List.mem_map] at hg1'
    obtain ⟨t, ht, htg⟩ := hg1'
    have hcand := greedyAssign_subset _ _ t ht
    obtain ⟨ge, hge, hgee⟩ := candidatePairs_snd_mem _ _ _ _ t hcand
    have hlt : g < ids.length := by
      rw [← htg, hgee]
      exact indexedCenters_fst_lt ids ge hge
    have hg2' : g ∈ (trackerSpawned tau_active delta_new max_speakers sim ids
        activity embs).2.map Prod.snd := hg2
    unfold trackerSpawned at hg2'
    rw [hk, List.mem_range'_1] at hg2'
    omega

/-! ## Witnesses: the claim theorems applied at concrete inputs -/

/-- Witness for C8 at the spec's minimal scenario, step one half and
latency one half, with monotonicity evaluated against latency three
quarters. -/
theorem num_overlapping_windows_spec_witness :
    ((0 : ℚ) < 1/2) ∧ ((1/2 : ℚ) ≤ 1/2)
    ∧ (numOverlappingWindows (1/2) (1/2) : ℤ) = ⌈(1/2 : ℚ) / (1/2 : ℚ)⌉
    ∧ 1 ≤ numOverlappingWindows (1/2) (1/2)
    ∧ numOverlappingWindows (1/2) (1/2) ≤ numOverlappingWindows (1/2) (3/4)
    ∧ numOverlappingWindows (1/2) (1/2) = 1 := by
  have h := num_overlapping_windows_spec (1/2) (1/2) (by norm_num) (by norm_num)
  exact ⟨by norm_num, by norm_num, h.1, h.2.1, h.2.2.1 (3/4) (by norm_num),
    h.2.2.2⟩

/-- Witness for C1: a concrete valid one-chunk batch succeeds and returns
the loop's result. -/
theorem pipeline_call_per_chunk_witness :
    pipelineCall trivialOracles (resetState cfg0) [chunk0]
      = Except.ok (runChunks trivialOracles
          (chunk0.duration / ((trivialOracles.segmentation chunk0).length : ℚ))
          (resetState cfg0) [chunk0]) :=
  (pipeline_call_per_chunk trivialOracles (resetState cfg0) chunk0 [] 0).1
    (by
      intro w hw
      rw [List.mem_singleton] at hw
      subst hw
      show ((1 : ℕ) : ℤ) = rint (1 * ((1 : ℕ) : ℚ))
      norm_num [rint])

/-- Witness for C2: the three concrete precondition violations all fail
fast. -/
theorem precondition_fail_fast_witness :
    pipelineCall trivialOracles (resetState cfg0) []
      = Except.error "Pipeline expected at least 1 input"
    ∧ (∃ msg, pipelineCall trivialOracles (resetState cfg0) [badChunk]
        = Except.error msg)
    ∧ mkPipeline { cfg0 with latency := 2 }
      = Except.error "Latency should be in the range of step and duration" :=
  ⟨(precondition_fail_fast trivialOracles (resetState cfg0) [badChunk]
      { cfg0 with latency := 2 }).1,
   (precondition_fail_fast trivialOracles (resetState cfg0) [badChunk]
      { cfg0 with latency := 2 }).2.1
     ⟨badChunk, List.mem_singleton.mpr rfl, by
       show ((2 : ℕ) : ℤ) ≠ rint (1 * ((1 : ℕ) : ℚ))
       norm_num [rint]⟩,
   (precondition_fail_fast trivialOracles (resetState cfg0) [badChunk]
      { cfg0 with latency := 2 }).2.2
     (by norm_num [cfg0])⟩

/-- Witness for C5: resetting a dirtied concrete session restores the
fresh state and replaying one chunk matches the fresh run. -/
theorem reset_discards_and_replay_witness :
    reset junkState = resetState junkState.config
    ∧ runChunks trivialOracles 0 (reset junkState) [chunk0]
        = runChunks trivialOracles 0 (reset (resetState cfg0)) [chunk0] :=
  ⟨(reset_discards_and_replay trivialOracles junkState (resetState cfg0) 0
      [chunk0]).1,
   (reset_discards_and_replay trivialOracles junkState (resetState cfg0) 0
      [chunk0]).2 rfl⟩

end Diart
